import Mathlib

/-!
Verification development for the JETSCAPE-analysis event-ingestion and
cross-section-weighted aggregation pipeline.

Shallow embedding of:
  * `jetscape_analysis/analysis/reader/reader_ascii.py` (`ReaderAscii.__init__`,
    `parse_event`, `next_event`),
  * `jetscape_analysis/analysis/analyze_events_base.py` (`initialize_config`,
    `analyze_jetscape_events` grid enumeration, `get_event_info`,
    `write_output_objects`, `cross_section`).

Python exceptions and `sys.exit` are modelled by the `Except PyErr` monad;
machine text is modelled by Lean `String`s; a particle record is represented
by the whitespace-separated tokens of its line (the source converts those
tokens with `np.array(..., dtype=float)`, whose success is modelled by the
`isFloatLit` guard — no claim depends on the numeric values themselves, only
on record counts and on which object is produced).
-/

namespace JetscapeAnalysis

/-- Outcomes of the Python code paths that do not return normally:
uncaught exceptions (`FileNotFoundError` from `open`, `AttributeError` from
`None.append`, `ValueError` from `float(...)`, `IndexError` from list
indexing) and `sys.exit(msg)`. All of them terminate the process. -/
inductive PyErr where
  | fileNotFound
  | attributeError
  | valueError
  | indexError
  | systemExit (msg : String)
deriving DecidableEq, Repr

/-- Decidable equality on `Except`, so that concrete runs of the embedded
code can be checked with `decide`. -/
instance {ε α : Type} [DecidableEq ε] [DecidableEq α] :
    DecidableEq (Except ε α) := fun a b =>
  match a, b with
  | Except.error e, Except.error f =>
      if h : e = f then isTrue (by rw [h])
      else isFalse (by intro hh; cases hh; exact h rfl)
  | Except.ok x, Except.ok y =>
      if h : x = y then isTrue (by rw [h])
      else isFalse (by intro hh; cases hh; exact h rfl)
  | Except.error _, Except.ok _ => isFalse (by intro hh; cases hh)
  | Except.ok _, Except.error _ => isFalse (by intro hh; cases hh)

/-- Whether the string begins with the single character `c`
(Python `s.startswith(c)` for a one-character marker). -/
def pyStartsWith (s : String) (c : Char) : Bool :=
  match s.data with
  | d :: _ => d = c
  | [] => false

/-- Worker for `pySplit`: current run of non-whitespace characters is carried
reversed. -/
def splitWsAux : List Char → List Char → List String
  | [], cur => if cur.isEmpty then [] else [String.mk cur.reverse]
  | c :: rest, cur =>
    if c.isWhitespace then
      (if cur.isEmpty then [] else [String.mk cur.reverse]) ++ splitWsAux rest []
    else splitWsAux rest (c :: cur)

/-- Python `str.split()` with no argument: split on runs of whitespace,
discarding empty pieces. -/
def pySplit (s : String) : List String :=
  splitWsAux s.data []

/-- Python `str.rstrip(chr(10))`: drop all trailing newline characters. -/
def pyRstripNl (s : String) : String :=
  String.mk ((s.data.reverse.dropWhile (fun c => c = '\n')).reverse)

/-- Whether `pat` occurs at the start of `text`. -/
def leadsWith : List Char → List Char → Bool
  | [], _ => true
  | _ :: _, [] => false
  | p :: ps, c :: cs => p = c && leadsWith ps cs

/-- Whether `pat` occurs anywhere in `text`. -/
def containsSub (pat : List Char) : List Char → Bool
  | [] => leadsWith pat []
  | c :: cs => leadsWith pat (c :: cs) || containsSub pat cs

/-- Python `pat in hay` substring test. -/
def pyContains (hay pat : String) : Bool :=
  containsSub pat.data hay.data

/-- Worker for `splitOnChar`. -/
def splitCharAux (sep : Char) : List Char → List Char → List String
  | [], cur => [String.mk cur.reverse]
  | c :: rest, cur =>
    if c = sep then String.mk cur.reverse :: splitCharAux sep rest []
    else splitCharAux sep rest (c :: cur)

/-- Python `s.split(sep)` for a one-character separator: always at least one
piece, empty pieces kept. -/
def splitOnChar (sep : Char) (s : String) : List String :=
  splitCharAux sep s.data []

/-- Python `str.strip()`: drop leading and trailing whitespace (as `float()`
does to its argument). -/
def pyStrip (s : String) : String :=
  String.mk (((s.data.dropWhile Char.isWhitespace).reverse.dropWhile
    Char.isWhitespace).reverse)

/-- Case-fold the exponent marker only: `float()` accepts both `e` and `E`. -/
def lowerE (c : Char) : Char :=
  if c = 'E' then 'e' else c

/-- Nonempty string of decimal digits. -/
def allDigits (s : String) : Bool :=
  !s.data.isEmpty && s.data.all Char.isDigit

/-- Drop one leading sign character, as Python `float()` tolerates. -/
def dropSign (s : String) : String :=
  if pyStartsWith s '+' || pyStartsWith s '-' then String.mk (s.data.drop 1)
  else s

/-- Unsigned decimal mantissa accepted by Python `float()`: digits with an
optional decimal point, at least one digit overall. -/
def mantissaOk (s : String) : Bool :=
  match splitOnChar '.' s with
  | [a] => allDigits a
  | [a, b] =>
      !(a.data.isEmpty && b.data.isEmpty) &&
        (a.data.all Char.isDigit && b.data.all Char.isDigit)
  | _ => false

/-- Success of Python `float(s)` on ordinary decimal/scientific literals
(the forms occurring in JETSCAPE output files). -/
def isFloatLit (s : String) : Bool :=
  let t := dropSign (String.mk ((pyStrip s).data.map lowerE))
  match splitOnChar 'e' t with
  | [m] => mantissaOk m
  | [m, ex] => mantissaOk m && allDigits (dropSign ex)
  | _ => false

/-- One particle record: the whitespace-separated tokens of a non-marker line
(see the file header for why tokens stand in for the `dtype=float` array). -/
abbrev Particle := List String

/-- One entry of `parse_event`'s result list: either a Python list of particle
records or Python `None` (the initial value of the local `event`). -/
abbrev PyEvent := Option (List Particle)

/-- The body of `event.append(np.array(line.rstrip(chr(10)).split(), dtype=float))`:
tokenization plus the `dtype=float` conversion guard (`ValueError` when some
token is not a float literal). -/
def parseParticle (line : String) : Except PyErr Particle :=
  let toks := pySplit (pyRstripNl line)
  if toks.all isFloatLit then Except.ok toks else Except.error PyErr.valueError

/-- Python truthiness of the local variable `event` in `parse_event`
(`if event:`): `None` and the empty list are falsy. -/
def pyTruthyEvent (ev : Option (List Particle)) : Bool :=
  match ev with
  | some (_ :: _) => true
  | _ => false

/-- The line loop of `ReaderAscii.parse_event` (reader_ascii.py lines 53-62):
state is the accumulated `event_list` and the current `event` (initially
`None`). A line starting with the marker appends the previous event when it
is truthy and resets `event` to the empty list; any other line appends a
particle record to `event` (`AttributeError` when `event` is still `None`). -/
def parseEventLoop : List String → List PyEvent → Option (List Particle) →
    Except PyErr (List PyEvent × Option (List Particle))
  | [], acc, ev => Except.ok (acc, ev)
  | line :: rest, acc, ev =>
    if pyStartsWith line '#' then
      parseEventLoop rest (if pyTruthyEvent ev then acc ++ [ev] else acc) (some [])
    else
      match ev with
      | none => Except.error PyErr.attributeError
      | some ps =>
        match parseParticle line with
        | Except.error e => Except.error e
        | Except.ok p => parseEventLoop rest acc (some (ps ++ [p]))

/-- After the loop, `event_list.append(event)` runs unconditionally
(reader_ascii.py line 65), so the final in-progress `event` — possibly `None`
or empty — is always appended. -/
def finishParse (r : Except PyErr (List PyEvent × Option (List Particle))) :
    Except PyErr (List PyEvent) :=
  match r with
  | Except.error e => Except.error e
  | Except.ok (acc, ev) => Except.ok (acc ++ [ev])

/-- `ReaderAscii.parse_event` (reader_ascii.py lines 48-67) applied to the
lines of the input file. -/
def parse_event (fileLines : List String) : Except PyErr (List PyEvent) :=
  finishParse (parseEventLoop fileLines [] none)

/-- The `sys.exit` message of `ReaderAscii.__init__` on an event-count
mismatch (reader_ascii.py line 42). -/
def mismatchMsg (nh np : Nat) : String :=
  "Final state partons has " ++ toString nh ++ " events, but partons has " ++
    toString np ++ "."

/-- State of a `ReaderAscii` instance after construction
(reader_ascii.py lines 28-42). `event_list_partons` is `none` when the
partons file does not exist (Python `None`). -/
structure ReaderAscii where
  event_list_hadrons : List PyEvent
  current_event : Nat
  n_events : Nat
  event_list_partons : Option (List PyEvent)
deriving DecidableEq, Repr

/-- `ReaderAscii.__init__` (reader_ascii.py lines 28-42). A file is given as
`some lines` when it exists and `none` when it does not (`open` on a missing
hadrons path raises `FileNotFoundError`; `os.path.exists` on the partons path
decides whether it is parsed at all). Both files exist exactly when the
parsed partons list is `some`, since the hadrons file was already opened. -/
def readerInit (hadronsFile partonsFile : Option (List String)) :
    Except PyErr ReaderAscii :=
  match hadronsFile with
  | none => Except.error PyErr.fileNotFound
  | some hl =>
    match parse_event hl with
    | Except.error e => Except.error e
    | Except.ok elh =>
      match partonsFile with
      | some pl =>
        match parse_event pl with
        | Except.error e => Except.error e
        | Except.ok ep =>
          if elh.length ≠ ep.length then
            Except.error (PyErr.systemExit (mismatchMsg elh.length ep.length))
          else
            Except.ok { event_list_hadrons := elh, current_event := 0,
                        n_events := elh.length, event_list_partons := some ep }
      | none =>
        Except.ok { event_list_hadrons := elh, current_event := 0,
                    n_events := elh.length, event_list_partons := none }

/-- The `event_partons` argument passed to `EventAscii`: either an entry of
`event_list_partons`, or the empty string when `event_list_partons` is falsy
(reader_ascii.py lines 78-81). -/
inductive PartonsVal where
  | event (e : PyEvent)
  | emptyStr
deriving DecidableEq, Repr

/-- Modelled from the spec: the Particle Event Model container
(`event/event_ascii.py`, not under src/) — an immutable per-event container
holding the hadron records and the parton records (or the empty placeholder)
exactly as handed to its constructor by `next_event`. -/
structure EventAscii where
  hadrons : PyEvent
  partons : PartonsVal
deriving DecidableEq, Repr

/-- `ReaderAscii.next_event` (reader_ascii.py lines 73-85): on success returns
the updated reader state and the constructed event; past the last event it
runs `sys.exit`. The `some (p :: ps)` branch is Python truthiness of
`self.event_list_partons` (`None` and `[]` falsy). -/
def next_event (r : ReaderAscii) : Except PyErr (ReaderAscii × EventAscii) :=
  if r.current_event < r.n_events then
    let r' : ReaderAscii := { r with current_event := r.current_event + 1 }
    match r.event_list_hadrons.get? (r'.current_event - 1) with
    | none => Except.error PyErr.indexError
    | some eh =>
      match r.event_list_partons with
      | some (p :: ps) =>
          match (p :: ps).get? (r'.current_event - 1) with
          | none => Except.error PyErr.indexError
          | some ep =>
              Except.ok (r', { hadrons := eh, partons := PartonsVal.event ep })
      | _ => Except.ok (r', { hadrons := eh, partons := PartonsVal.emptyStr })
  else
    Except.error (PyErr.systemExit ("Current event " ++
      toString r.current_event ++ " greater than total n_events " ++
      toString r.n_events))

/-- Modelled from the spec: `ReaderBase.__call__` (`reader/reader_base.py`,
not under src/). The spec says the Reader "exposes a call operation
parameterized by a maximum event count, producing a sequence of Events",
bounded by the configured maximum — modelled as fetching `next_event` up to
`n_events` times and collecting the yielded events; any exception or
`sys.exit` raised by `next_event` propagates. -/
def readerCall : ReaderAscii → Nat → Except PyErr (List EventAscii)
  | _, 0 => Except.ok []
  | r, n + 1 =>
    match next_event r with
    | Except.error e => Except.error e
    | Except.ok (r', ev) =>
      match readerCall r' n with
      | Except.error e => Except.error e
      | Except.ok rest => Except.ok (ev :: rest)

/-- `AnalyzeJetscapeEvents_Base.get_event_info` (analyze_events_base.py
line 207): increments `self.event_id`, which was set to `0` once in
`initialize_config` (line 75). -/
def get_event_info (event_id : Nat) : Nat := event_id + 1

/-- What one pt-hat bin's `write_output_objects` persists into that bin's
fresh `hNevents` histogram (analyze_events_base.py lines 184, 219):
the histogram bin index `pt_hat_bin + 1` and the value `self.event_id`
passed to `SetBinContent`. -/
structure BinOutput where
  hist_bin : Nat
  nevents : Nat
deriving DecidableEq, Repr

/-- The event-count effect of `run_jetscape_analysis` for one grid point
(analyze_events_base.py lines 142-176): every iterated event calls
`get_event_info`, then `write_output_objects` persists
`(pt_hat_bin + 1, event_id)` (line 219). The events a bin iterates are
given as an abstract list (the pluggable per-event hook is external). -/
def run_jetscape_analysis_counts (event_id : Nat) (pt_hat_bin : Nat)
    (events : List Unit) : Nat × BinOutput :=
  let event_id := events.foldl (fun e _ => get_event_info e) event_id
  (event_id, { hist_bin := pt_hat_bin + 1, nevents := event_id })

/-- The per-grid-point loop of `analyze_jetscape_events`
(analyze_events_base.py lines 94-132), restricted to its event-count state:
`self.event_id` is threaded through the bins, never reset between them. -/
def driverLoop : Nat → List (Nat × List Unit) → List BinOutput
  | _, [] => []
  | event_id, (b, evs) :: rest =>
    let r := run_jetscape_analysis_counts event_id b evs
    r.2 :: driverLoop r.1 rest

/-- The whole driver run as far as event counting is concerned:
`initialize_config` sets `event_id = 0` (analyze_events_base.py line 75),
then each processed grid point (given as its `pt_hat_bin` index and its
iterated events) runs `run_jetscape_analysis` and persists its output. -/
def analyze_driver (bins : List (Nat × List Unit)) : List BinOutput :=
  driverLoop 0 bins

/-- One scan axis of `parameter_scan_dict` (analyze_events_base.py line 62):
a label and an ordered list of values. Axis values are modelled as the
strings `str(value)` produces for them. -/
structure ScanAxis where
  label : String
  values : List String
deriving DecidableEq, Repr

/-- `itertools.product` over a list of value lists, in itertools order
(first axis varies slowest). -/
def pyProduct : List (List α) → List (List α)
  | [] => [[]]
  | xs :: rest => xs.flatMap (fun x => (pyProduct rest).map (fun t => x :: t))

/-- Python slicing `l[:-n]`: for `n = 0` this is `l[:0] = []`, otherwise the
first `len(l) - n` elements. -/
def pySliceDropLast (l : List α) (n : Nat) : List α :=
  if n = 0 then [] else l.take (l.length - n)

/-- The `dir_label` construction (analyze_events_base.py lines 106-113):
entry 0 of the combination contributes `str(pt_hat_bin)`; every later entry
contributes an underscore, its axis label and its value. At the call site
the combination and the label list have the same length (both range over
the axes of `parameter_scan_dict`), so `getD` never takes its default. -/
def dirLabel (pt_hat_bin : Nat) (parameter_labels : List String)
    (combo : List String) : String :=
  combo.enum.foldl
    (fun acc iv =>
      if iv.1 = 0 then acc ++ toString pt_hat_bin
      else acc ++ "_" ++ parameter_labels.getD iv.1 "" ++ iv.2)
    ""

/-- The grid enumeration of `analyze_jetscape_events`
(analyze_events_base.py lines 80-115): the outer product of all axis value
lists, the `[:-n_combinations_per_pthat]` slice, and the per-index
`pt_hat_bin` computation with its `continue` guard. The first axis is the
`pt_hat_bins` axis (the first key of `parameter_scan_dict`); Python's
`int(len(combos)/len(pt_hat_bins))` is exact division here (the product
length is a multiple of the edge count), modelled as `Nat` division.
Returns the processed grid points as `(pt_hat_bin, dir_label)` in order. -/
def analyze_jetscape_events_grid (axes : List ScanAxis) : List (Nat × String) :=
  let parameter_labels := axes.map ScanAxis.label
  let pt_hat_bins := (axes.headD { label := "", values := [] }).values
  let parameter_values := axes.map ScanAxis.values
  let combos := pyProduct parameter_values
  let n_per := combos.length / pt_hat_bins.length
  let combos := pySliceDropLast combos n_per
  combos.enum.filterMap
    (fun ic =>
      let b := ic.1 / n_per
      if b < pt_hat_bins.length - 1 then
        some (b, dirLabel b parameter_labels ic.2)
      else none)

/-- A value appended to the `cross_sections` list in
`AnalyzeJetscapeEvents_Base.cross_section` (analyze_events_base.py
lines 244-264): the hepmc branch appends the number
`float(split[3]) / 1e9` (kept symbolically by its source token,
since no claim depends on its numeric value), while the dat branch
appends the raw matching `line` itself. -/
inductive PyVal where
  | hepmcXsec (token : String)
  | line (l : String)
deriving DecidableEq, Repr

/-- One iteration of the line loop in `cross_section`
(analyze_events_base.py lines 249-261): `split[i]` out of range raises
`IndexError`, a non-numeric token raises `ValueError` in `float`. The dat
branch computes `xsec = float(split[2])` but appends `line`. -/
def crossSectionStep (reader_type : String) (acc : List PyVal)
    (line : String) : Except PyErr (List PyVal) :=
  if reader_type = "hepmc" then
    if pyContains line "GenCrossSection" then
      match (pySplit line).get? 3 with
      | none => Except.error PyErr.indexError
      | some tok =>
          if isFloatLit tok then Except.ok (acc ++ [PyVal.hepmcXsec tok])
          else Except.error PyErr.valueError
    else Except.ok acc
  else if reader_type = "dat" then
    if pyContains line "sigmaGen" then
      match (pySplit line).get? 2 with
      | none => Except.error PyErr.indexError
      | some tok =>
          if isFloatLit tok then Except.ok (acc ++ [PyVal.line line])
          else Except.error PyErr.valueError
    else Except.ok acc
  else Except.ok acc

/-- The line loop of `cross_section`, folding `crossSectionStep` over the
file's lines. -/
def crossSectionLoop (reader_type : String) :
    List String → List PyVal → Except PyErr (List PyVal)
  | [], acc => Except.ok acc
  | line :: rest, acc =>
    match crossSectionStep reader_type acc line with
    | Except.error e => Except.error e
    | Except.ok acc' => crossSectionLoop reader_type rest acc'

/-- `AnalyzeJetscapeEvents_Base.cross_section` (analyze_events_base.py
lines 244-264): scan the input file's lines, collect matching values, return
`cross_sections[-1]` — which raises `IndexError` when the list is empty. -/
def cross_section (reader_type : String) (fileLines : List String) :
    Except PyErr PyVal :=
  match crossSectionLoop reader_type fileLines [] with
  | Except.error e => Except.error e
  | Except.ok xs =>
    match xs.getLast? with
    | some v => Except.ok v
    | none => Except.error PyErr.indexError

/-- The tokenization a particle line undergoes in `parse_event`
(reader_ascii.py line 62), without the `dtype=float` success guard. -/
def lineTokens (l : String) : Particle :=
  pySplit (pyRstripNl l)

/-- One tagged block of an ASCII input file: a block-start marker line and
the particle lines that follow it up to the next marker (or end of file). -/
structure Block where
  marker : String
  particles : List String
deriving DecidableEq, Repr

/-- The lines a block contributes to the file. -/
def Block.lines (b : Block) : List String :=
  b.marker :: b.particles

/-- The lines of a file made of consecutive tagged blocks. -/
def blocksLines (blocks : List Block) : List String :=
  blocks.flatMap Block.lines

/-- The event `parse_event` builds for one fully parsed block. -/
def blockEvent (b : Block) : PyEvent :=
  some (b.particles.map lineTokens)

/-- Well-formedness of one block: the marker line starts with the marker
character, no particle line does, and every particle token is a float
literal (so `np.array(..., dtype=float)` succeeds). -/
def wfBlock (b : Block) : Prop :=
  pyStartsWith b.marker '#' = true ∧
    ∀ l ∈ b.particles,
      pyStartsWith l '#' = false ∧ (lineTokens l).all isFloatLit = true

/-- Well-formedness of a block is decidable, so concrete witnesses can be
checked by `decide`. -/
instance (b : Block) : Decidable (wfBlock b) := by
  unfold wfBlock
  infer_instance

/-- A hadrons file holding 40 events: each event is a marker line followed
by one single-field particle line. -/
def fortyEventLines : List String :=
  (List.range 40).flatMap (fun _ => ["#", "1"])

/-- The reader state `ReaderAscii.__init__` builds from `fortyEventLines`
with no partons file. -/
def fortyEventReader : ReaderAscii :=
  { event_list_hadrons := List.replicate 40 (some [["1"]]),
    current_event := 0, n_events := 40, event_list_partons := none }

theorem parseEventLoop_append (l1 l2 : List String) :
    ∀ acc ev, parseEventLoop (l1 ++ l2) acc ev =
      match parseEventLoop l1 acc ev with
      | Except.error e => Except.error e
      | Except.ok r => parseEventLoop l2 r.1 r.2 := by
  induction l1 with
  | nil =>
    intro acc ev
    simp [parseEventLoop]
  | cons line rest ih =>
    intro acc ev
    simp only [List.cons_append, parseEventLoop]
    by_cases h : pyStartsWith line '#'
    · simp only [h, if_true]
      exact ih _ _
    · simp only [h, if_false]
      cases ev with
      | none => rfl
      | some ps =>
        cases hp : parseParticle line with
        | error e => rfl
        | ok p => exact ih _ _

theorem parseEventLoop_particles (ps : List String) :
    ∀ rest acc cur,
      (∀ l ∈ ps, pyStartsWith l '#' = false ∧ (lineTokens l).all isFloatLit = true) →
      parseEventLoop (ps ++ rest) acc (some cur) =
        parseEventLoop rest acc (some (cur ++ ps.map lineTokens)) := by
  induction ps with
  | nil => intro rest acc cur _; simp
  | cons l ls ih =>
    intro rest acc cur h
    obtain ⟨h1, h2⟩ := h l (List.mem_cons_self l ls)
    have h2' : (pySplit (pyRstripNl l)).all isFloatLit = true := h2
    have hpp : parseParticle l = Except.ok (lineTokens l) := by
      simp only [parseParticle, h2', if_true]
      rfl
    simp only [List.cons_append, parseEventLoop, h1, Bool.false_eq_true,
      if_false, hpp, List.append_eq]
    rw [ih rest acc (cur ++ [lineTokens l])
      (fun x hx => h x (List.mem_cons_of_mem l hx))]
    simp

theorem parse_event_length_pos (fileLines : List String) (res : List PyEvent)
    (h : parse_event fileLines = Except.ok res) : 0 < res.length := by
  unfold parse_event finishParse at h
  cases hl : parseEventLoop fileLines [] none with
  | error e => rw [hl] at h; cases h
  | ok r =>
    obtain ⟨acc, ev⟩ := r
    rw [hl] at h
    cases h
    simp

theorem blocksLines_cons (b : Block) (rest : List Block) :
    blocksLines (b :: rest) = b.marker :: (b.particles ++ blocksLines rest) := by
  simp [blocksLines, Block.lines]

theorem parseEventLoop_blocks (blocks : List Block) :
    ∀ acc cur, cur ≠ [] →
      (∀ b ∈ blocks, wfBlock b) →
      (∀ b ∈ blocks.dropLast, b.particles ≠ []) →
      finishParse (parseEventLoop (blocksLines blocks) acc (some cur)) =
        Except.ok (acc ++ some cur :: blocks.map blockEvent) := by
  induction blocks with
  | nil =>
    intro acc cur _ _ _
    simp [blocksLines, parseEventLoop, finishParse]
  | cons b rest ih =>
    intro acc cur hcur hwf hne
    obtain ⟨hm, hps⟩ := hwf b (List.mem_cons_self b rest)
    have htr : pyTruthyEvent (some cur) = true := by
      cases cur with
      | nil => exact absurd rfl hcur
      | cons x xs => rfl
    rw [blocksLines_cons]
    simp only [parseEventLoop, hm, if_true, htr]
    rw [parseEventLoop_particles b.particles (blocksLines rest)
      (acc ++ [some cur]) [] hps]
    cases rest with
    | nil =>
      simp [blocksLines, parseEventLoop, finishParse, blockEvent]
    | cons r rs =>
      have hbp : b.particles ≠ [] := hne b (by simp)
      have hmap : b.particles.map lineTokens ≠ [] := by
        intro hh
        exact hbp (List.map_eq_nil_iff.mp hh)
      rw [List.nil_append]
      rw [ih (acc ++ [some cur]) (b.particles.map lineTokens) hmap
        (fun x hx => hwf x (List.mem_cons_of_mem b hx))
        (fun x hx => hne x (by
          rw [List.dropLast_cons₂]
          exact List.mem_cons_of_mem b hx))]
      simp [blockEvent]

theorem parse_event_blocks (blocks : List Block) (hb : blocks ≠ [])
    (hwf : ∀ b ∈ blocks, wfBlock b)
    (hne : ∀ b ∈ blocks.dropLast, b.particles ≠ []) :
    parse_event (blocksLines blocks) = Except.ok (blocks.map blockEvent) := by
  cases blocks with
  | nil => exact absurd rfl hb
  | cons b rest =>
    obtain ⟨hm, hps⟩ := hwf b (List.mem_cons_self b rest)
    unfold parse_event
    rw [blocksLines_cons]
    simp only [parseEventLoop, hm, if_true, pyTruthyEvent, Bool.false_eq_true,
      if_false]
    rw [parseEventLoop_particles b.particles (blocksLines rest) [] [] hps]
    cases rest with
    | nil =>
      simp [blocksLines, parseEventLoop, finishParse, blockEvent]
    | cons r rs =>
      have hbp : b.particles ≠ [] := hne b (by simp)
      have hmap : b.particles.map lineTokens ≠ [] := by
        intro hh
        exact hbp (List.map_eq_nil_iff.mp hh)
      rw [List.nil_append]
      rw [parseEventLoop_blocks (r :: rs) [] (b.particles.map lineTokens) hmap
        (fun x hx => hwf x (List.mem_cons_of_mem b hx))
        (fun x hx => hne x (by
          rw [List.dropLast_cons₂]
          exact List.mem_cons_of_mem b hx))]
      simp [blockEvent]

theorem foldl_get_event_info (events : List Unit) :
    ∀ event_id, events.foldl (fun e _ => get_event_info e) event_id =
      event_id + events.length := by
  induction events with
  | nil => intro event_id; simp
  | cons e es ih =>
    intro event_id
    rw [List.foldl_cons, ih]
    show get_event_info event_id + es.length = event_id + (e :: es).length
    simp only [get_event_info, List.length_cons]
    omega

theorem driverLoop_length (bins : List (Nat × List Unit)) :
    ∀ event_id, (driverLoop event_id bins).length = bins.length := by
  induction bins with
  | nil => intro _; rfl
  | cons b rest ih => intro event_id; simp [driverLoop, ih]

theorem driverLoop_getD_nevents (bins : List (Nat × List Unit)) :
    ∀ event_id k, k < bins.length →
      ((driverLoop event_id bins).getD k
          { hist_bin := 0, nevents := 0 }).nevents =
        event_id + ((bins.take (k + 1)).map (fun b => b.2.length)).sum := by
  induction bins with
  | nil =>
    intro event_id k hk
    simp at hk
  | cons b rest ih =>
    intro event_id k hk
    cases k with
    | zero =>
      simp [driverLoop, run_jetscape_analysis_counts, foldl_get_event_info]
    | succ n =>
      have hrec := ih (event_id + b.2.length) n (by
        simp only [List.length_cons] at hk
        omega)
      simp only [driverLoop, run_jetscape_analysis_counts,
        foldl_get_event_info, List.getD_cons_succ]
      rw [hrec]
      simp only [List.take_succ_cons, List.map_cons, List.sum_cons]
      omega

/-- C1 counterexample: the driver processes two grid points, each iterating
exactly one event; the hNevents value persisted for the second bin is 2 —
the cumulative count since `initialize_config` — not the 1 event iterated
for that bin alone, refuting the claim that the per-bin counter starts at
zero when each bin's processing begins. -/
theorem second_bin_persists_cumulative_count :
    analyze_driver [(0, [()]), (1, [()])] =
      [{ hist_bin := 1, nevents := 1 }, { hist_bin := 2, nevents := 2 }] ∧
    ([()] : List Unit).length = 1 ∧ (2 : Nat) ≠ 1 :=
  ⟨by decide, by decide, by decide⟩

/-- C1 amended: `event_id` is set to zero once at configuration time and
never reset between bins, so the hNevents value persisted for the k-th
processed grid point equals the cumulative number of events iterated over
grid points 0..k (it equals the bin's own count only when the earlier bins
contributed zero events). -/
theorem hNevents_persists_cumulative_count (bins : List (Nat × List Unit))
    (k : Nat) (hk : k < bins.length) :
    ((analyze_driver bins).getD k { hist_bin := 0, nevents := 0 }).nevents =
      ((bins.take (k + 1)).map (fun b => b.2.length)).sum := by
  have h := driverLoop_getD_nevents bins 0 k hk
  simpa [analyze_driver] using h

/-- Witness for the amended C1 theorem at a concrete two-bin run. -/
theorem hNevents_persists_cumulative_count_witness :
    ((analyze_driver [(0, [()]), (1, [()])]).getD 1
        { hist_bin := 0, nevents := 0 }).nevents =
      (([(0, [()]), (1, [()])].take 2).map (fun b => b.2.length)).sum :=
  hNevents_persists_cumulative_count [(0, [()]), (1, [()])] 1 (by decide)

/-- C2 (code bug): on a dat-format stream whose metadata lines report the
cross-section values 3.1, 3.05, 3.02 in encounter order, `cross_section`
returns the raw last matching line — the string "# sigmaGen 3.02" — not the
numeric value 3.02: the parsed `xsec = float(split[2])` is computed and
discarded, and the line object itself is appended to the collected list. -/
theorem cross_section_dat_returns_line_not_number :
    cross_section "dat"
        ["# sigmaGen 3.1", "# sigmaGen 3.05", "# sigmaGen 3.02"] =
      Except.ok (PyVal.line "# sigmaGen 3.02") := by decide

/-- C3 (code bug): a Reader over a 40-event file asked for 100 events does
not yield the 40 events followed by a falsy sentinel — the 41st
`next_event` call runs `sys.exit`, terminating the process, contradicting
`next_event`'s own contract comment "Return event if successful, False if
unsuccessful" and the non-fatal end-of-stream handling in the driver. -/
theorem reader_exhaustion_runs_sys_exit :
    readerInit (some fortyEventLines) none = Except.ok fortyEventReader ∧
    fortyEventReader.n_events = 40 ∧
    readerCall fortyEventReader 100 =
      Except.error (PyErr.systemExit
        "Current event 40 greater than total n_events 40") :=
  ⟨by decide, by decide, by decide⟩

/-- C7: grid enumeration computes the full outer product of the scan-axis
value lists, drops the trailing slice of combinations belonging to the last
pt-hat edge, and over pt-hat edges [10,20,30] with one auxiliary axis
labelled "alpha" holding values [A,B] processes exactly 4 grid points, each
identified by the pt-hat bin index and the auxiliary label and value. -/
theorem grid_drops_last_edge_and_labels_bins :
    pyProduct [["10", "20", "30"], ["A", "B"]] =
      [["10", "A"], ["10", "B"], ["20", "A"], ["20", "B"],
       ["30", "A"], ["30", "B"]] ∧
    pySliceDropLast (pyProduct [["10", "20", "30"], ["A", "B"]]) 2 =
      [["10", "A"], ["10", "B"], ["20", "A"], ["20", "B"]] ∧
    analyze_jetscape_events_grid
        [{ label := "pt_hat_bin", values := ["10", "20", "30"] },
         { label := "alpha", values := ["A", "B"] }] =
      [(0, "0_alphaA"), (0, "0_alphaB"), (1, "1_alphaA"), (1, "1_alphaB")] :=
  ⟨by decide, by decide, by decide⟩

/-- C5 counterexample: the input lines "#m1", "#m2", "7" form a well-formed
tagged-block file with N = 2 block-start marker lines (the first block empty,
which the spec declares valid), yet `parse_event` produces a single event and
the constructed Reader reports `n_events = 1`, not 2. -/
theorem two_markers_but_one_event :
    parse_event ["#m1", "#m2", "7"] = Except.ok [some [["7"]]] ∧
    readerInit (some ["#m1", "#m2", "7"]) none =
      Except.ok { event_list_hadrons := [some [["7"]]], current_event := 0,
                  n_events := 1, event_list_partons := none } ∧
    (1 : Nat) ≠ 2 :=
  ⟨by decide, by decide, by decide⟩

/-- C5 amended: for every nonempty well-formed tagged-block ASCII input in
which every block except possibly the last contains at least one particle
line, `parse_event` yields exactly one event per block-start marker, the
Reader reports `n_events = N`, and the i-th event's particle count equals
the number of non-marker lines between the i-th marker and the next
(or end of file). -/
theorem reader_yields_block_events (blocks : List Block) (hb : blocks ≠ [])
    (hwf : ∀ b ∈ blocks, wfBlock b)
    (hne : ∀ b ∈ blocks.dropLast, b.particles ≠ []) :
    parse_event (blocksLines blocks) = Except.ok (blocks.map blockEvent) ∧
    readerInit (some (blocksLines blocks)) none =
      Except.ok { event_list_hadrons := blocks.map blockEvent,
                  current_event := 0, n_events := blocks.length,
                  event_list_partons := none } ∧
    ∀ i, i < blocks.length →
      (blocks.map blockEvent).getD i none =
        some ((blocks.getD i { marker := "", particles := [] }).particles.map
          lineTokens) ∧
      ((blocks.getD i { marker := "", particles := [] }).particles.map
          lineTokens).length =
        (blocks.getD i { marker := "", particles := [] }).particles.length := by
  have hp := parse_event_blocks blocks hb hwf hne
  refine ⟨hp, ?_, ?_⟩
  · simp [readerInit, hp]
  · intro i hi
    constructor
    · rw [List.getD_eq_getElem _ _ (by simpa using hi),
        List.getD_eq_getElem _ _ hi]
      simp [blockEvent]
    · simp

/-- Witness for the amended C5 theorem: a two-block file whose second block
is empty (the one position where an empty block is kept). -/
theorem reader_yields_block_events_witness :
    parse_event (blocksLines [{ marker := "#", particles := ["1.0"] },
        { marker := "#", particles := [] }]) =
      Except.ok ([{ marker := "#", particles := ["1.0"] },
        { marker := "#", particles := [] }].map blockEvent) :=
  (reader_yields_block_events
    [{ marker := "#", particles := ["1.0"] },
     { marker := "#", particles := [] }]
    (by decide) (by decide) (by decide)).1

/-- C6 counterexample: the input "#e1", "#e2", "1.0", "2.0" contains an empty
event block (two consecutive markers with nothing between them), yet the
Reader reports a single event: the empty event is dropped, not counted. -/
theorem empty_inner_event_not_counted :
    readerInit (some ["#e1", "#e2", "1.0", "2.0"]) none =
      Except.ok { event_list_hadrons := [some [["1.0"], ["2.0"]]],
                  current_event := 0, n_events := 1,
                  event_list_partons := none } ∧
    (1 : Nat) ≠ 2 :=
  ⟨by decide, by decide⟩

/-- C6 amended: an event block with zero particle lines is kept only when it
is the final block of the file; an empty block immediately followed by
another block-start marker is dropped by the `if event:` truthiness test.
Appending one marker line to any successfully parsed prefix appends a
counted empty final event, and appending a further marker right after it
leaves the result unchanged — the now-inner empty block is not counted. -/
theorem empty_event_counted_only_when_last (fileLines : List String)
    (m m' : String) (hm : pyStartsWith m '#' = true)
    (hm' : pyStartsWith m' '#' = true)
    (acc : List PyEvent) (ev : Option (List Particle))
    (h : parseEventLoop fileLines [] none = Except.ok (acc, ev)) :
    parse_event (fileLines ++ [m]) =
      Except.ok ((if pyTruthyEvent ev then acc ++ [ev] else acc) ++
        [some []]) ∧
    parse_event (fileLines ++ [m, m']) =
      Except.ok ((if pyTruthyEvent ev then acc ++ [ev] else acc) ++
        [some []]) := by
  constructor
  · unfold parse_event
    rw [parseEventLoop_append fileLines [m] [] none, h]
    simp [parseEventLoop, hm, finishParse]
  · unfold parse_event
    rw [parseEventLoop_append fileLines [m, m'] [] none, h]
    simp [parseEventLoop, hm, hm', pyTruthyEvent, finishParse]

/-- Witness for the amended C6 theorem on a concrete one-event prefix. -/
theorem empty_event_counted_only_when_last_witness :
    parse_event ["#x", "1", "#y"] = Except.ok [some [["1"]], some []] ∧
    parse_event ["#x", "1", "#y", "#z"] =
      Except.ok [some [["1"]], some []] := by
  have h := empty_event_counted_only_when_last ["#x", "1"] "#y" "#z"
    (by decide) (by decide) [] (some [["1"]]) (by decide)
  simpa [pyTruthyEvent] using h

/-- C10 counterexample: a readable one-line hadrons file whose only line is a
particle line (no block marker) makes `parse_event` raise `AttributeError`
(`event` is still `None` when `event.append` runs), so it does not return a
list at all — neither a list of length ≥ 1 nor `[None]`. -/
theorem no_marker_line_raises :
    parse_event ["1.0"] = Except.error PyErr.attributeError := by decide

/-- C10 amended: whenever `parse_event` returns normally, the returned list
has length at least 1, because the final in-progress event is appended
unconditionally after the line loop; in particular for an empty file the
result is `[None]` and the Reader reports `n_events = 1` rather than 0.
(A nonempty file with no marker line raises `AttributeError` instead of
returning.) -/
theorem parse_event_result_nonempty (fileLines : List String)
    (res : List PyEvent) (h : parse_event fileLines = Except.ok res) :
    0 < res.length ∧ (fileLines = [] → res = [none]) ∧
    readerInit (some []) none =
      Except.ok { event_list_hadrons := [none], current_event := 0,
                  n_events := 1, event_list_partons := none } := by
  refine ⟨parse_event_length_pos fileLines res h, ?_, by decide⟩
  intro he
  subst he
  have hemp : parse_event [] = Except.ok [none] := by decide
  rw [hemp] at h
  injection h with h'
  exact h'.symm

/-- Witness for the amended C10 theorem at the empty file. -/
theorem parse_event_result_nonempty_witness :
    0 < ([none] : List PyEvent).length ∧
    (([] : List String) = [] → ([none] : List PyEvent) = [none]) ∧
    readerInit (some []) none =
      Except.ok { event_list_hadrons := [none], current_event := 0,
                  n_events := 1, event_list_partons := none } :=
  parse_event_result_nonempty [] [none] (by decide)

theorem crossSectionLoop_no_match (reader_type : String)
    (fileLines : List String)
    (h : ∀ l ∈ fileLines, pyContains l "GenCrossSection" = false ∧
        pyContains l "sigmaGen" = false) :
    ∀ acc, crossSectionLoop reader_type fileLines acc = Except.ok acc := by
  induction fileLines with
  | nil => intro acc; rfl
  | cons l ls ih =>
    intro acc
    obtain ⟨h1, h2⟩ := h l (List.mem_cons_self l ls)
    have hstep : crossSectionStep reader_type acc l = Except.ok acc := by
      unfold crossSectionStep
      by_cases hr : reader_type = "hepmc"
      · simp [hr, h1]
      · by_cases hd : reader_type = "dat"
        · simp [hr, hd, h2]
        · simp [hr, hd]
    simp [crossSectionLoop, hstep,
      ih (fun x hx => h x (List.mem_cons_of_mem l hx))]

/-- C8: for every input stream containing no cross-section metadata line
(no line mentions the hepmc keyword or the dat keyword), `cross_section`
fails fatally — `cross_sections[-1]` on the empty list raises `IndexError`
— rather than returning a default value such as zero or one. -/
theorem cross_section_no_metadata_is_fatal (reader_type : String)
    (fileLines : List String)
    (h : ∀ l ∈ fileLines, pyContains l "GenCrossSection" = false ∧
        pyContains l "sigmaGen" = false) :
    cross_section reader_type fileLines = Except.error PyErr.indexError := by
  unfold cross_section
  rw [crossSectionLoop_no_match reader_type fileLines h []]
  rfl

/-- Witness for C8 on a concrete metadata-free stream. -/
theorem cross_section_no_metadata_is_fatal_witness :
    cross_section "dat" ["hello world", "1.0 2.0"] =
      Except.error PyErr.indexError :=
  cross_section_no_metadata_is_fatal "dat" ["hello world", "1.0 2.0"]
    (by decide)

/-- C9: a Reader constructed with a partons path that does not exist on disk
succeeds silently — `event_list_partons` is `None`, the hadron/parton count
check is skipped — and every event yielded afterwards carries the empty
partons placeholder (the empty string) rather than the run failing. -/
theorem missing_partons_file_tolerated (hl : List String)
    (elh : List PyEvent) (h : parse_event hl = Except.ok elh) :
    readerInit (some hl) none =
      Except.ok { event_list_hadrons := elh, current_event := 0,
                  n_events := elh.length, event_list_partons := none } ∧
    ∀ (r : ReaderAscii), r.event_list_partons = none →
      ∀ r' ev, next_event r = Except.ok (r', ev) →
        ev.partons = PartonsVal.emptyStr := by
  constructor
  · simp [readerInit, h]
  · intro r hr r' ev hcall
    unfold next_event at hcall
    by_cases hc : r.current_event < r.n_events
    · rw [if_pos hc, hr] at hcall
      dsimp only at hcall
      cases hg : r.event_list_hadrons.get? (r.current_event + 1 - 1) with
      | none => rw [hg] at hcall; cases hcall
      | some eh =>
        rw [hg] at hcall
        injection hcall with h2
        have := congrArg Prod.snd h2
        simp at this
        rw [← this]
    · rw [if_neg hc] at hcall
      cases hcall

/-- Witness for C9: a one-event hadrons file, no partons file; the yielded
event's partons component is the empty placeholder. -/
theorem missing_partons_file_tolerated_witness :
    readerInit (some ["#", "1.0"]) none =
      Except.ok { event_list_hadrons := [some [["1.0"]]], current_event := 0,
                  n_events := 1, event_list_partons := none } ∧
    (PartonsVal.emptyStr = PartonsVal.emptyStr) := by
  have h := missing_partons_file_tolerated ["#", "1.0"] [some [["1.0"]]]
    (by decide)
  exact ⟨h.1, rfl⟩

/-- C4: when both the hadrons and the partons files exist, construction
fails fatally (`sys.exit`) whenever their parsed event counts differ;
whenever the counts match, construction succeeds and the i-th successful
`next_event` call (reader state `current_event = i`) pairs the hadron event
at ordinal i with the parton event at the same ordinal i. -/
theorem parton_mismatch_exits_and_matching_pairs (hl pl : List String)
    (elh elp : List PyEvent)
    (hh : parse_event hl = Except.ok elh)
    (hp : parse_event pl = Except.ok elp) :
    (elh.length ≠ elp.length →
      readerInit (some hl) (some pl) =
        Except.error (PyErr.systemExit (mismatchMsg elh.length elp.length))) ∧
    (∀ heq : elh.length = elp.length,
      readerInit (some hl) (some pl) =
        Except.ok { event_list_hadrons := elh, current_event := 0,
                    n_events := elh.length, event_list_partons := some elp } ∧
      ∀ i (hi : i < elh.length),
        next_event { event_list_hadrons := elh, current_event := i,
                     n_events := elh.length,
                     event_list_partons := some elp } =
          Except.ok
            ({ event_list_hadrons := elh, current_event := i + 1,
               n_events := elh.length, event_list_partons := some elp },
             { hadrons := elh.get ⟨i, hi⟩,
               partons := PartonsVal.event (elp.get ⟨i, heq ▸ hi⟩) })) := by
  constructor
  · intro hdiff
    simp [readerInit, hh, hp, hdiff]
  · intro heq
    constructor
    · simp [readerInit, hh, hp, heq]
    · intro i hi
      have hip : i < elp.length := heq ▸ hi
      obtain ⟨p, ps, rfl⟩ : ∃ p ps, elp = p :: ps := by
        cases elp with
        | nil => simp at hip
        | cons p ps => exact ⟨p, ps, rfl⟩
      unfold next_event
      rw [if_pos hi]
      dsimp only
      rw [show i + 1 - 1 = i from rfl]
      rw [List.get?_eq_get hi, List.get?_eq_get hip]

/-- Witness for C4: matching one-event files pair ordinally; a two-event
hadrons file against a one-event partons file exits fatally. -/
theorem parton_mismatch_exits_and_matching_pairs_witness :
    readerInit (some ["#", "1.0"]) (some ["#", "2.0"]) =
      Except.ok { event_list_hadrons := [some [["1.0"]]], current_event := 0,
                  n_events := 1,
                  event_list_partons := some [some [["2.0"]]] } ∧
    readerInit (some ["#", "1.0", "#", "3.0"]) (some ["#", "2.0"]) =
      Except.error (PyErr.systemExit (mismatchMsg 2 1)) := by
  constructor
  · exact ((parton_mismatch_exits_and_matching_pairs ["#", "1.0"] ["#", "2.0"]
      [some [["1.0"]]] [some [["2.0"]]] (by decide) (by decide)).2 rfl).1
  · exact (parton_mismatch_exits_and_matching_pairs ["#", "1.0", "#", "3.0"]
      ["#", "2.0"] [some [["1.0"]], some [["3.0"]]] [some [["2.0"]]]
      (by decide) (by decide)).1 (by decide)

end JetscapeAnalysis
